import Mathlib

/-!
Shallow embedding of `src/post_processing_stages/imx500_mobilenet.cpp`
(the IMX500 MobileNet SSD output-tensor decoder of rpicam-apps).

Modelling conventions:
* C++ machine integers are `Nat` with explicit `% 2 ^ w` at the places where
  the source can actually wrap (unsigned overflow is defined behaviour in
  C++); where a bounds check in the source provably prevents wrapping, the
  plain `Nat` operation is used and the file notes it.
* `float` values are modelled as `ℚ`.  Every arithmetic step of the source on
  floats is a single operation on exact integer inputs
  (`(raw - shift) * scale`, `normalized * (dim - 1)`), so exact rational
  arithmetic reproduces it up to the final IEEE rounding, which is not
  modelled.  The one float division of the source
  (`std::ceil(size / (float)maxLineLen)`) is modelled as exact ceiling
  division; the two coincide for the sizes below 2^24.
* Fallible code returns `Res α`: `.ok` for a normal value, `.err` for the
  source's `return -1` paths (the constructor names record which check
  fired), and `.ub` for undefined behaviour (division by zero, out-of-range
  `std::vector` subscripts / float-to-integer conversions, failed `assert`,
  thrown `std::out_of_range`).  `.ub` poisons the whole decode.
* Raw buffers are total functions `Nat → Nat` giving the byte at each offset
  (values are reduced `% 256` exactly where the source reinterprets memory
  as `uint8_t`).  The concurrent per-tensor tasks of the source are executed
  sequentially in the exact order the source's scheduling loop produces;
  the tasks write disjoint regions when the layout plan is respected, so
  this is one legal schedule of the source.
-/

namespace Imx500

/-- The `UINT32_MAX`. -/
def U32MAX : Nat := 4294967295

/-- The `PplTotalDetections`: the fixed number of candidate detections. -/
def PplTotalDetections : Nat := 10

/-- The `PplDnnOutputTensorSize`: bbox(10*4) + class(10) + scores(10) + numDetections(1). -/
def PplDnnOutputTensorSize : Nat := 61

/-- The `TensorDataType::TYPE_SIGNED`. -/
def TYPE_SIGNED : Nat := 0

/-- The `TensorDataType::TYPE_UNSIGNED`. -/
def TYPE_UNSIGNED : Nat := 1

/-- The `DnnHeaderSize` in `MobileNet::parseHeader`. -/
def DnnHeaderSize : Nat := 12

/-- The `MipiPhSize` in `MobileNet::parseHeader`. -/
def MipiPhSize : Nat := 0

/-- The hard-coded `stride` value in `MobileNet::Process`. -/
def strideConst : Nat := 4064

/-- Which of the source's failure paths fired (the source returns `-1` from
all of them; the constructor records the check). -/
inductive Err where
  | invalidFrame        -- parseHeader: frameValid == 0
  | invalidSchema       -- parseApParams: non-zero dimension padding
  | layoutOverflow      -- populateOutputBodyInfo: either overflow check in the size loop
  | emptyLayout         -- populateOutputBodyInfo: totalOutSize == 0
  | allocOverflow       -- populateOutputBodyInfo: totalOutSize >= UINT32_MAX / sizeof(float)
  | emptyTensors        -- populateOutputBodyInfo: numOutputTensors == 0
  | tensorCountOverflow -- populateOutputBodyInfo: numOutputTensors >= UINT32_MAX / sizeof(uint32_t)
  | bodyTotalOverflow   -- parseOutputTensorBody: totalSize > UINT32_MAX / sizeof(float)
  | tensorSizeOverflow  -- parseOutputTensorBody: per-dimension size overflow check
  | offsetOverflow      -- parseOutputTensorBody: offset > output_size
  | zeroTensorSize      -- tensor task: outputTensorSize == 0
  | unsupportedWidth    -- tensor task: bitsPerElement not 8 or 16
  | taskFailed          -- parseOutputTensorBody: aggregated nonzero task return
deriving DecidableEq, Repr

/-- Outcome of a fallible computation: normal value, `return -1` error, or
undefined behaviour. -/
inductive Res (α : Type) where
  | ok : α → Res α
  | err : Err → Res α
  | ub : Res α
deriving DecidableEq, Repr

/-- Whether a `Res` is a normal (`.ok`) outcome. -/
def Res.isOk {α : Type} : Res α → Bool
  | .ok _ => true
  | _ => false

/-- Case analysis on a `Res` (used to express the stage chaining of
`Process` in a rewriting-friendly form). -/
def resCase {α β : Type} (x : Res α) (fub : Res β) (ferr : Err → Res β)
    (fok : α → Res β) : Res β :=
  match x with
  | .ub => fub
  | .err e => ferr e
  | .ok a => fok a

/-- The `struct DnnHeader` (fields widened to `Nat`). -/
structure DnnHeader where
  frameValid : Nat
  frameCount : Nat
  maxLineLen : Nat
  apParamSize : Nat
  networkId : Nat
  tensorType : Nat
deriving DecidableEq, Repr

/-- The `struct Dimensions`. -/
structure Dimensions where
  ordinal : Nat
  size : Nat
  serializationIndex : Nat
  padding : Nat
deriving DecidableEq, Repr, Inhabited

/-- The `struct OutputTensorApParams` (the `name` field is only logged by the
source and is omitted). -/
structure OutputTensorApParams where
  id : Nat
  vecDim : List Dimensions
  bitsPerElement : Nat
  shift : Nat
  scale : ℚ
  format : Nat
deriving DecidableEq, Repr

/-- The `numDimensions`: the source stores `numOfDimensions()` and pushes exactly
that many entries onto `vecDim`, so the two always agree. -/
def OutputTensorApParams.numDimensions (p : OutputTensorApParams) : Nat :=
  p.vecDim.length

/-- A dimension record as read from the schema table
(`dimensions()->Get(k)`): `id` is what the source stores as `ordinal`. -/
structure FBDimension where
  id : Nat
  size : Nat
  serializationIndex : Nat
  padding : Nat
deriving DecidableEq, Repr

/-- An output-tensor record of the schema table (`FBOutputTensor`). -/
structure FBOutputTensor where
  id : Nat
  dimensions : List FBDimension
  bitsPerElement : Nat
  shift : Nat
  scale : ℚ
  format : Nat
deriving DecidableEq, Repr

/-- A network record of the schema table (`FBNetwork`; the `type` and
`inputTensors` fields are only logged by the source and are omitted). -/
structure FBNetwork where
  id : Nat
  outputTensors : List FBOutputTensor
deriving DecidableEq, Repr

/-! ### Header Parser (`MobileNet::parseHeader`) -/

/-- The fixed 12-byte header read by `dnnHeader_ = *(DnnHeader *)src`:
little-endian field extraction at the struct's field offsets
(0, 1, 2, 4, 6, 8), exactly the layout an ARM/x86 build reads. -/
def headerOf (buf : Nat → Nat) : DnnHeader :=
  { frameValid := buf 0 % 256
    frameCount := buf 1 % 256
    maxLineLen := buf 2 % 256 + 256 * (buf 3 % 256)
    apParamSize := buf 4 % 256 + 256 * (buf 5 % 256)
    networkId := buf 6 % 256 + 256 * (buf 7 % 256)
    tensorType := buf 8 % 256 }

/-- The de-striping copy loop of `parseHeader`: `n` bytes remain to copy,
`base` is the offset of the current line's first byte (`src` of the source),
`i` is the in-line cursor.  The wrap test `stride && i >= stride` runs before
each read, and a wrap resets the cursor and advances the source by
`stride + MipiPhSize` bytes. -/
def destripe (buf : Nat → Nat) (stride : Nat) : Nat → Nat → Nat → List Nat
  | 0, _, _ => []
  | n + 1, base, i =>
    if stride ≠ 0 ∧ stride ≤ i then
      buf (base + stride + MipiPhSize) %
          256 :: destripe buf stride n (base + stride + MipiPhSize) 1
    else
      buf (base + i) % 256 :: destripe buf stride n base (i + 1)

/-- The schema bytes (`apParams_`) recovered by `parseHeader`: `apParamSize`
bytes copied starting at in-line offset `DnnHeaderSize = 12`. -/
def schemaBytesOf (buf : Nat → Nat) (stride : Nat) : List Nat :=
  destripe buf stride (headerOf buf).apParamSize 0 DnnHeaderSize

/-- The `MobileNet::parseHeader`: fails when `frameValid` is zero, otherwise
yields the header and the de-striped schema bytes. -/
def parseHeader (buf : Nat → Nat) (stride : Nat) : Res (DnnHeader × List Nat) :=
  if (headerOf buf).frameValid = 0 then .err .invalidFrame
  else .ok (headerOf buf, schemaBytesOf buf stride)

/-! ### Schema Interpreter (`MobileNet::parseApParams`)

The binary decoding of the schema bytes is done by the generated reader
`apParams.flatbuffers_generated.h`, which is not part of this repository;
a `Config` (below) therefore carries an abstract `decodeTable` function
standing for `apParams::fb::GetFBApParams`, and `parseApParams` consumes its
already-decoded table, performing exactly the source's own work: selecting
the first network whose id matches, copying each tensor descriptor and
rejecting non-zero dimension padding. -/

/-- Descriptor extraction for one output tensor (the `j` loop body of
`parseApParams`): any dimension with non-zero padding makes the whole parse
fail. -/
def buildApParam (t : FBOutputTensor) : Res OutputTensorApParams :=
  if t.dimensions.any (fun d => d.padding ≠ 0) then .err .invalidSchema
  else
    .ok { id := t.id
          vecDim := t.dimensions.map
            (fun d => { ordinal := d.id, size := d.size,
                        serializationIndex := d.serializationIndex,
                        padding := d.padding })
          bitsPerElement := t.bitsPerElement
          shift := t.shift
          scale := t.scale
          format := t.format }

/-- The `mapM` for `Res` (used for loops that push onto a vector and can fail). -/
def resMapM {α β : Type} (f : α → Res β) : List α → Res (List β)
  | [] => .ok []
  | x :: xs =>
    resCase (f x) .ub Res.err fun y =>
      resCase (resMapM f xs) .ub Res.err fun ys => .ok (y :: ys)

/-- The `MobileNet::parseApParams`: first network whose id equals the header's
`networkId` contributes its output-tensor descriptors; no match leaves the
descriptor list empty without error. -/
def parseApParams (networks : List FBNetwork) (networkId : Nat) :
    Res (List OutputTensorApParams) :=
  match networks with
  | [] => .ok []
  | net :: rest =>
    if net.id ≠ networkId then parseApParams rest networkId
    else resMapM buildApParam net.outputTensors

/-! ### Layout Planner (`MobileNet::populateOutputBodyInfo`) -/

/-- The inner dimension-size loop: the source evaluates
`UINT32_MAX / dim.size` first (undefined for size 0), errors when the
running product is at least that quotient, and otherwise multiplies.  A
passing check gives `acc * size <= UINT32_MAX - size`, so the `uint32_t`
multiplication never wraps and plain `Nat` multiplication is exact. -/
def totalDimensionSizeLoop : List Dimensions → Nat → Res Nat
  | [], acc => .ok acc
  | d :: rest, acc =>
    if d.size = 0 then .ub
    else if U32MAX / d.size ≤ acc then .err .layoutOverflow
    else totalDimensionSizeLoop rest (acc * d.size)

/-- The outer accumulation of `totalOutSize`: a passing check gives
`acc + tds <= UINT32_MAX - 1`, so the `uint32_t` addition never wraps. -/
def totalOutSizeLoop : List OutputTensorApParams → Nat → Res Nat
  | [], acc => .ok acc
  | p :: rest, acc =>
    resCase (totalDimensionSizeLoop p.vecDim 1) .ub Res.err fun tds =>
      if U32MAX - tds ≤ acc then .err .layoutOverflow
      else totalOutSizeLoop rest (acc + tds)

/-- The `MobileNet::populateOutputBodyInfo`: computes `totalOutSize` with
overflow-checked accumulation, then runs the zero/size sanity checks
(`sizeof(float) = sizeof(uint32_t) = 4`).  Returns the planned total element
count; the source additionally zero-fills `address` (modelled where the
tensor body is decoded). -/
def populateOutputBodyInfo (ps : List OutputTensorApParams) : Res Nat :=
  resCase (totalOutSizeLoop ps 0) .ub Res.err fun total =>
    if total = 0 then .err .emptyLayout
    else if U32MAX / 4 ≤ total then .err .allocOverflow
    else if ps.length = 0 then .err .emptyTensors
    else if U32MAX / 4 ≤ ps.length then .err .tensorCountOverflow
    else .ok total

/-! ### Dequantization (`getVal8`, `bytes_to_uint16`, `bytes_to_int16`) -/

/-- The `(int8_t)` reinterpretation of a byte. -/
def toSigned8 (b : Nat) : ℤ :=
  if b % 256 < 128 then (b % 256 : Nat) else (b % 256 : Nat) - 256

/-- The `int16_t` reinterpretation of a 16-bit value (two's complement, as on
every supported target). -/
def toSigned16 (v : Nat) : ℤ :=
  if v % 65536 < 32768 then (v % 65536 : Nat) else (v % 65536 : Nat) - 65536

/-- The `getVal8<T>`: reinterpret the byte per `format`, then de-quantize
`(temp - shift) * scale` (integer subtraction is exact; the single float
multiplication is modelled exactly in `ℚ`). -/
def getVal8 (format : Nat) (b : Nat) (shift : Nat) (scale : ℚ) : ℚ :=
  let temp : ℤ := if format = TYPE_SIGNED then toSigned8 b else (b % 256 : Nat)
  ((temp : ℚ) - (shift : ℚ)) * scale

/-- The `bytes_to_uint16(MSB, LSB)`: `(MSB & 255) << 8 | (LSB & 255)`. -/
def bytes_to_u16 (msb lsb : Nat) : Nat :=
  (msb % 256) * 256 + lsb % 256

/-- The 16-bit element decode of `parseOutputTensorBody`: the source calls
`bytes_to_uint16 / bytes_to_int16` with `MSB = src[i + 1]` and
`LSB = src[i]`, interprets per `format`, then de-quantizes. -/
def getVal16 (format : Nat) (b0 b1 : Nat) (shift : Nat) (scale : ℚ) : ℚ :=
  let v : Nat := bytes_to_u16 b1 b0
  let temp : ℤ := if format = TYPE_SIGNED then toSigned16 v else v
  ((temp : ℚ) - (shift : ℚ)) * scale

/-! ### Tensor body extraction loops (`parseOutputTensorBody`, lines 507-558)

`n` lines remain, `base` is the buffer offset of the current line's first
byte, `rem` the number of elements still to decode.  Each line yields up to
`maxLineLen` bytes (8-bit case) or `ceil(maxLineLen/2)` byte pairs (16-bit
case, cursor advancing by 2); the element counter breaks both loops when the
tensor is complete, and running out of lines simply stops (producing fewer
elements, as in the source). -/

/-- The 8-bit extraction loop. -/
def extract8 (buf : Nat → Nat) (format : Nat) (shift : Nat) (scale : ℚ)
    (L stride : Nat) : Nat → Nat → Nat → List ℚ
  | 0, _, _ => []
  | n + 1, base, rem =>
    let k := min L rem
    ((List.range k).map fun j => getVal8 format (buf (base + j)) shift scale) ++
      (if rem ≤ L then []
       else extract8 buf format shift scale L stride n (base + stride) (rem - k))

/-- The 16-bit extraction loop (`rem` counts elements,
`outputTensorSize >> 1` at the call site). -/
def extract16 (buf : Nat → Nat) (format : Nat) (shift : Nat) (scale : ℚ)
    (L stride : Nat) : Nat → Nat → Nat → List ℚ
  | 0, _, _ => []
  | n + 1, base, rem =>
    let epl := (L + 1) / 2
    let k := min epl rem
    ((List.range k).map fun j =>
        getVal16 format (buf (base + 2 * j)) (buf (base + 2 * j + 1)) shift scale) ++
      (if rem ≤ epl then []
       else extract16 buf format shift scale L stride n (base + stride) (rem - k))

/-! ### Per-tensor preparation (`parseOutputTensorBody`, lines 417-462) -/

/-- Write the `size` field of entry `i` (`vector::operator[]` assignment). -/
def setDimSize (l : List Dimensions) (i v : Nat) : List Dimensions :=
  l.set i { l.getD i default with size := v }

/-- Write the `serializationIndex` field of entry `i`. -/
def setDimSI (l : List Dimensions) (i v : Nat) : List Dimensions :=
  l.set i { l.getD i default with serializationIndex := v }

/-- The dimension loop of the preparation pass: builds `serializedDim` and
`actualDim` and accumulates `tensorOutSize`.  A `serializationIndex` outside
`[0, numDimensions)` makes `serializedDim[...]` an out-of-bounds
`vector::operator[]` write (undefined).  The `uint32_t` multiplication
happens *before* its overflow check (so it wraps, `% 2^32`), and the check's
divisor `bitsPerElement` being 0 is a division by zero (undefined). -/
def prepDimsLoop (bits : Nat) :
    List Dimensions → List Dimensions → List Dimensions → Nat → Nat →
    Res (List Dimensions × List Dimensions × Nat)
  | [], sDim, aDim, tos, _ => .ok (sDim, aDim, tos)
  | d :: rest, sDim, aDim, tos, idx =>
    let aDim1 := setDimSize aDim idx d.size
    if d.serializationIndex < sDim.length then
      let sDim1 := setDimSize sDim d.serializationIndex d.size
      let tos1 := tos * d.size % 4294967296
      if bits = 0 then .ub
      else if U32MAX / bits / 8 ≤ tos1 then .err .tensorSizeOverflow
      else
        let aDim2 := setDimSI aDim1 idx d.serializationIndex
        let sDim2 := setDimSI sDim1 d.serializationIndex idx
        prepDimsLoop bits rest sDim2 aDim2 tos1 (idx + 1)
    else .ub

/-- Run the dimension loop with the source's initial state: value-initialized
`serializedDim` / `actualDim` vectors of length `numDimensions` and
`tensorOutSize = bitsPerElement / 8`. -/
def prepDims (p : OutputTensorApParams) :
    Res (List Dimensions × List Dimensions × Nat) :=
  prepDimsLoop p.bitsPerElement p.vecDim
    (List.replicate p.numDimensions default)
    (List.replicate p.numDimensions default)
    (p.bitsPerElement / 8) 0

/-- Ceiling division, the exact value of
`std::ceil(tensorOutSize / (float)maxLineLen)` for sizes below `2^24`
(the float rounding above that is not modelled; no claim depends on it). -/
def ceilDivNat (a b : Nat) : Nat := (a + b - 1) / b

/-- Per-tensor data computed by the preparation pass. -/
structure TensorPrep where
  offset : Nat
  base : Nat
  outSize : Nat
  numLines : Nat
  tdn : Nat
  sDim : List Dimensions
  aDim : List Dimensions
deriving DecidableEq, Repr

/-- The preparation pass over all tensors: accumulates the element `offset`
and the line `base` of each tensor, computes `numLines` (a `uint16_t`, hence
`% 65536`; `maxLineLen = 0` makes the float division produce infinity whose
`uint16_t` conversion is undefined) and `tensorDataNum`
(`outputTensorSize / (bitsPerElement / 8)`, undefined when the divisor is 0),
and checks `offset > output_size` after each tensor. -/
def prepTensors (L stride total : Nat) :
    List OutputTensorApParams → Nat → Nat → Res (List TensorPrep)
  | [], _, _ => .ok []
  | p :: rest, offset, base =>
    resCase (prepDims p) .ub Res.err fun pd =>
      if L = 0 then .ub
      else
        let numLines := ceilDivNat pd.2.2 L % 65536
        if p.bitsPerElement / 8 = 0 then .ub
        else
          let tdn := pd.2.2 / (p.bitsPerElement / 8)
          if total < offset + tdn then .err .offsetOverflow
          else
            resCase (prepTensors L stride total rest (offset + tdn)
                (base + numLines * stride)) .ub Res.err fun tps =>
              .ok ({ offset := offset, base := base, outSize := pd.2.2,
                     numLines := numLines, tdn := tdn,
                     sDim := pd.1, aDim := pd.2.1 } :: tps)

/-! ### Task scheduling order (`parseOutputTensorBody`, lines 464-475) -/

/-- One comparison-and-swap of the source's ordering pass
(`if (numLinesVec[idxs[i]] > numLinesVec[idxs[j]]) std::swap(idxs[i], idxs[j])`). -/
def swapStep (nl : List Nat) (idxs : List Nat) (ij : Nat × Nat) : List Nat :=
  if nl.getD (idxs.getD ij.2 0) 0 < nl.getD (idxs.getD ij.1 0) 0 then
    (idxs.set ij.1 (idxs.getD ij.2 0)).set ij.2 (idxs.getD ij.1 0)
  else idxs

/-- The double loop producing the task execution order. -/
def orderIdxs (nl : List Nat) : List Nat :=
  ((List.range nl.length).flatMap fun i =>
      (List.range nl.length).map fun j => (i, j)).foldl
    (swapStep nl) (List.range nl.length)

/-! ### Per-tensor decode task (the lambda of `parseOutputTensorBody`) -/

/-- Whether any dimension's `serializationIndex` differs from its `ordinal`. -/
def sortingRequired (p : OutputTensorApParams) : Bool :=
  p.vecDim.any fun d => d.serializationIndex ≠ d.ordinal

/-- Write `vals` into `dst` starting at `offset` (the extraction loop's
`tmpDst[offset + elementIndex] = ...` writes; `offset + tdn <= totalSize`
was checked by the preparation pass, so these stay in range). -/
def writeAt (dst : List ℚ) (offset : Nat) (vals : List ℚ) : List ℚ :=
  (vals.enum.foldl (fun acc ⟨j, v⟩ => acc.set (offset + j) v) dst)

/-- The sort-preparation loop (lines 571-585): runs `i` over the dimensions
but *breaks out* after the first three (`i >= DimensionMax` only logs), so
exactly `min numDimensions 3` iterations happen; `loopCnt[i]` is
`serializedDim.at(i).size` and `coef[i]` multiplies
`actualDim.at(j - 1).size` for `j` from `serializedDim.at(i).serializationIndex`
down to 1 (`vector::at` throws - undefined in an async task - when an index
is out of range). -/
def sortCoefsGo (sDim aDim : List Dimensions) :
    Nat → (Nat × Nat × Nat) → (Nat × Nat × Nat) →
    Res ((Nat × Nat × Nat) × (Nat × Nat × Nat))
  | 0, lc, cf => .ok (lc, cf)
  | i + 1, lc, cf =>
    resCase (sortCoefsGo sDim aDim i lc cf) .ub Res.err fun lcf =>
      let lc' := lcf.1
      let cf' := lcf.2
      if i < sDim.length then
        let si := (sDim.getD i default).serializationIndex
        if si ≤ aDim.length then
          let c := ((List.range si).map fun t => (aDim.getD t default).size).prod
          let sz := (sDim.getD i default).size
          .ok (match i with
               | 0 => ((sz, lc'.2.1, lc'.2.2), (c, cf'.2.1, cf'.2.2))
               | 1 => ((lc'.1, sz, lc'.2.2), (cf'.1, c, cf'.2.2))
               | _ => ((lc'.1, lc'.2.1, sz), (cf'.1, cf'.2.1, c)))
        else .ub
      else .ub

/-- The sort-preparation loop run over the first `min numDimensions 3`
dimension slots. -/
def sortCoefs (sDim aDim : List Dimensions) (n : Nat) :
    Res ((Nat × Nat × Nat) × (Nat × Nat × Nat)) :=
  sortCoefsGo sDim aDim (min n 3) (1, 1, 1) (1, 1, 1)

/-- The sort-execution triple loop (lines 587-600): iterates `(i, j, k)` with
`i < loopCnt[2]`, `j < loopCnt[1]`, `k < loopCnt[0]`, copying
`tmpDst[offset + src_index++]` to
`dst[offset + coef[2]*i + coef[1]*j + coef[0]*k]`; either subscript landing
outside the `totalSize`-element arrays is undefined. -/
def sortExec (total offset : Nat) (lc cf : Nat × Nat × Nat)
    (tmp dst : List ℚ) : Res (List ℚ) :=
  let triples := (List.range lc.2.2).flatMap fun i =>
    (List.range lc.2.1).flatMap fun j =>
      (List.range lc.1).map fun k => (i, j, k)
  (triples.enum.foldl
    (fun acc ⟨srcIdx, i, j, k⟩ =>
      match acc with
      | .ub => .ub
      | .err e => .err e
      | .ok d =>
        let dstIdx := cf.2.2 * i + cf.2.1 * j + cf.1 * k
        if offset + srcIdx < total ∧ offset + dstIdx < total then
          .ok (d.set (offset + dstIdx) (tmp.getD (offset + srcIdx) 0))
        else .ub)
    (.ok dst))

/-- The verbatim-copy branch (lines 602-613): `memcpy` of the tensor's
element count from `tmpDst` to `dst`. -/
def copyRegion (dst tmp : List ℚ) (offset count : Nat) : List ℚ :=
  (List.range count).foldl (fun acc t => acc.set (offset + t) (tmp.getD (offset + t) 0)) dst

/-- One tensor task (the lambda passed to `std::async`): extraction into
`tmpDst`, then either the index-permutation sort or the verbatim copy into
`dst`.  Returns the updated `(tmpDst, dst)` pair. -/
def decodeTensorTask (bodyBuf : Nat → Nat) (L stride total : Nat)
    (p : OutputTensorApParams) (tp : TensorPrep) (tmp dst : List ℚ) :
    Res (List ℚ × List ℚ) :=
  if tp.outSize = 0 then .err .zeroTensorSize
  else
    resCase
      (if p.bitsPerElement = 8 then
        .ok (writeAt tmp tp.offset
          (extract8 bodyBuf p.format p.shift p.scale L stride tp.numLines tp.base
            tp.outSize))
      else if p.bitsPerElement = 16 then
        .ok (writeAt tmp tp.offset
          (extract16 bodyBuf p.format p.shift p.scale L stride tp.numLines tp.base
            (tp.outSize / 2)))
      else (.err .unsupportedWidth : Res (List ℚ))) .ub Res.err fun tmp1 =>
      if sortingRequired p then
        resCase (sortCoefs tp.sDim tp.aDim p.numDimensions) .ub Res.err fun lccf =>
          resCase (sortExec total tp.offset lccf.1 lccf.2 tmp1 dst) .ub Res.err
            fun dst1 => .ok (tmp1, dst1)
      else
        if p.bitsPerElement = 8 then
          .ok (tmp1, copyRegion dst tmp1 tp.offset tp.outSize)
        else if p.bitsPerElement = 16 then
          .ok (tmp1, copyRegion dst tmp1 tp.offset (tp.outSize / 2))
        else .err .unsupportedWidth

/-- Run the tasks in the scheduled order, sequentially (one legal schedule:
regions are disjoint whenever every subscript is in range, and any
out-of-range subscript is `.ub` anyway).  Failed tasks contribute to the
aggregate return; all tasks run (`for (auto &f : futures) ret += f.get()`). -/
def runTasks (bodyBuf : Nat → Nat) (L stride total : Nat)
    (ps : List OutputTensorApParams) (tps : List TensorPrep) :
    List Nat → List ℚ → List ℚ → Nat → Res (List ℚ)
  | [], _, dst, nfail => if nfail ≠ 0 then .err .taskFailed else .ok dst
  | tIdx :: rest, tmp, dst, nfail =>
    match ps.get? tIdx, tps.get? tIdx with
    | some p, some tp =>
      resCase (decodeTensorTask bodyBuf L stride total p tp tmp dst) .ub
        (fun _ => runTasks bodyBuf L stride total ps tps rest tmp dst (nfail + 1))
        (fun td => runTasks bodyBuf L stride total ps tps rest td.1 td.2 nfail)
    | _, _ => .ub

/-- The `MobileNet::parseOutputTensorBody`: the entry size check, the
preparation pass, the scheduling order, and the tensor tasks over the shared
zero-initialized `tmpDst` and output (`dst`) arrays of `totalSize` floats. -/
def parseOutputTensorBody (bodyBuf : Nat → Nat) (stride : Nat)
    (ps : List OutputTensorApParams) (L total : Nat) : Res (List ℚ) :=
  if U32MAX / 4 < total then .err .bodyTotalOverflow
  else
    resCase (prepTensors L stride total ps 0 0) .ub Res.err fun tps =>
      runTasks bodyBuf L stride total ps tps
        (orderIdxs (tps.map TensorPrep.numLines))
        (List.replicate total 0) (List.replicate total 0) 0

/-! ### Detection Interpreter (`createObjectDetectionSsdData`,
`analyseObjectDetectionSsdOutput`, `MobileNet::processOutputTensor`) -/

/-- The `struct Bbox` (normalized corners, floats). -/
structure Bbox where
  xMin : ℚ
  yMin : ℚ
  xMax : ℚ
  yMax : ℚ
deriving DecidableEq, Repr

/-- The `struct ObjectDetectionSsdOutputTensor`. -/
structure SsdTensor where
  numDetections : Nat
  bboxes : List Bbox
  scores : List ℚ
  classes : List ℚ
deriving DecidableEq, Repr

/-- The `struct PplBbox` (pixel corners, `uint16_t`). -/
structure PplBbox where
  mXmin : Nat
  mYmin : Nat
  mXmax : Nat
  mYmax : Nat
deriving DecidableEq, Repr

/-- The `struct ObjectDetectionSsdData`. -/
structure ObjData where
  numDetections : Nat
  vBbox : List PplBbox
  vScores : List ℚ
  vClasses : List Nat
deriving DecidableEq, Repr

/-- The empty `ObjectDetectionSsdData` (`return {}` of the source). -/
def emptyObjData : ObjData := ⟨0, [], [], []⟩

/-- The `std::vector<float>::at`: a normal read in range, a thrown
`std::out_of_range` (modelled `.ub`, since nothing catches it) otherwise. -/
def qAt (l : List ℚ) (i : Nat) : Res ℚ :=
  (l.get? i).elim .ub Res.ok

/-- Truncation toward zero of a float in `(-1, 2^64)` to a natural number. -/
def truncToNat (v : ℚ) : Nat := if v < 0 then 0 else (⌊v⌋).toNat

/-- The C++ float-to-unsigned-integer conversion: truncation toward zero,
undefined unless the truncated value is representable
(value in the open interval `(-1, bound)`). -/
def floatToUnsignedCast (v : ℚ) (bound : Nat) : Res Nat :=
  if v ≤ -1 ∨ (bound : ℚ) ≤ v then .ub
  else .ok (truncToNat v)

/-- The C `round` function: half away from zero. -/
def roundC (q : ℚ) : ℤ :=
  if q < 0 then -(⌊-q + 1 / 2⌋) else ⌊q + 1 / 2⌋

/-- The `(uint16_t)` conversion of an integral `double`: undefined unless
the value is representable. -/
def intToU16Cast (z : ℤ) : Res Nat :=
  if z < 0 ∨ 65536 ≤ z then .ub else .ok z.toNat

/-- The `createObjectDetectionSsdData`: reinterprets the 61-float array as
`yMin[10], xMin[10], yMax[10], xMax[10], class[10], score[10], count`,
with the source's running `count` bound checks, and clamps the declared
`numDetections` (a float converted to `unsigned int` - undefined out of
range) to `totalDetections`. -/
def createSsd (data : List ℚ) (totalDetections : Nat) : Res SsdTensor :=
  if PplDnnOutputTensorSize < totalDetections * 4 then .err .offsetOverflow
  else
    resCase (resMapM (fun i =>
        resCase (qAt data i) .ub Res.err fun ymin =>
          resCase (qAt data (i + totalDetections)) .ub Res.err fun xmin =>
            resCase (qAt data (i + 2 * totalDetections)) .ub Res.err fun ymax =>
              resCase (qAt data (i + 3 * totalDetections)) .ub Res.err fun xmax =>
                .ok { xMin := xmin, yMin := ymin, xMax := xmax, yMax := ymax })
        (List.range totalDetections)) .ub Res.err fun bboxes =>
      resCase (resMapM (fun i =>
          if PplDnnOutputTensorSize < 4 * totalDetections + i then
            .err .offsetOverflow
          else qAt data (4 * totalDetections + i)) (List.range totalDetections))
        .ub Res.err fun classes =>
        resCase (resMapM (fun i =>
            if PplDnnOutputTensorSize < 5 * totalDetections + i then
              .err .offsetOverflow
            else qAt data (5 * totalDetections + i)) (List.range totalDetections))
          .ub Res.err fun scores =>
          if PplDnnOutputTensorSize < 6 * totalDetections then .err .offsetOverflow
          else
            resCase (qAt data (6 * totalDetections)) .ub Res.err fun nd =>
              resCase (floatToUnsignedCast nd 4294967296) .ub Res.err fun n =>
                .ok { numDetections := if totalDetections < n then totalDetections else n
                      bboxes := bboxes, scores := scores, classes := classes }

/-- The `uint32_t` value of `dim - 1` (wrapping when `dim = 0`), as computed
by `analyseObjectDetectionSsdOutput` for the width and height scales. -/
def u32pred (dim : Nat) : Nat := (dim + (2 ^ 32 - 1)) % 2 ^ 32

/-- The filtering loop of `analyseObjectDetectionSsdOutput`, over candidate
indices in array order: a candidate below the threshold is skipped;
otherwise its score is kept, its box corners are scaled by
`(width - 1, height - 1)` (already wrapped to `uint32_t` by the caller),
rounded and converted to `uint16_t`, and its class is converted to
`uint8_t` (both conversions undefined out of range). -/
def analyseFold (tensor : SsdTensor) (thr : ℚ) (w1 h1 : Nat) :
    List Nat → Res (List ℚ × List PplBbox × List Nat)
  | [] => .ok ([], [], [])
  | i :: rest =>
    resCase (qAt tensor.scores i) .ub Res.err fun sc =>
      if sc < thr then analyseFold tensor thr w1 h1 rest
      else
        (tensor.bboxes.get? i).elim .ub fun bb =>
          resCase (intToU16Cast (roundC (bb.xMin * w1))) .ub Res.err fun xmin =>
            resCase (intToU16Cast (roundC (bb.yMin * h1))) .ub Res.err fun ymin =>
              resCase (intToU16Cast (roundC (bb.xMax * w1))) .ub Res.err fun xmax =>
                resCase (intToU16Cast (roundC (bb.yMax * h1))) .ub Res.err fun ymax =>
                  resCase (qAt tensor.classes i) .ub Res.err fun cl =>
                    resCase (floatToUnsignedCast cl 256) .ub Res.err fun c =>
                      resCase (analyseFold tensor thr w1 h1 rest) .ub Res.err
                        fun sbc =>
                          .ok (sc :: sbc.1,
                               ⟨xmin, ymin, xmax, ymax⟩ :: sbc.2.1,
                               c :: sbc.2.2)

/-- The `analyseObjectDetectionSsdOutput`: filter by threshold in array order,
then truncate every surviving list to `maxDetections` when the count
exceeds it (`dim.width - 1` / `dim.height - 1` wrap as `uint32_t`). -/
def analyseSsd (tensor : SsdTensor) (maxDetections : Nat) (thr : ℚ)
    (width height : Nat) : Res ObjData :=
  let w1 := u32pred width
  let h1 := u32pred height
  resCase (analyseFold tensor thr w1 h1 (List.range tensor.numDetections))
    .ub Res.err fun sbc =>
    let ss := sbc.1
    let bs := sbc.2.1
    let cs := sbc.2.2
    let n := cs.length
    if maxDetections < n then
      .ok { numDetections := maxDetections, vBbox := bs.take maxDetections,
            vScores := ss.take maxDetections, vClasses := cs.take maxDetections }
    else .ok { numDetections := n, vBbox := bs, vScores := ss, vClasses := cs }

/-- The `MobileNet::processOutputTensor`: rejects a planned total other than 61
by returning the *empty* data (not an error), builds the SSD record, and
analyses it. -/
def processOutputTensor (total : Nat) (dst : List ℚ) (maxDetections : Nat)
    (thr : ℚ) (width height : Nat) : Res ObjData :=
  if total ≠ PplDnnOutputTensorSize then .ok emptyObjData
  else
    resCase (createSsd dst PplTotalDetections) .ub (fun _ => .ok emptyObjData)
      fun tensor => analyseSsd tensor maxDetections thr width height

/-! ### `MobileNet::Process` -/

/-- One surfaced detection (`Detection` of `object_detect.hpp`): category,
label, confidence and the pixel box `(x, y, width, height)` - the width and
height are `int` differences of `uint16_t` corners. -/
structure Detection where
  category : Nat
  label : String
  confidence : ℚ
  x : Nat
  y : Nat
  width : ℤ
  height : ℤ
deriving DecidableEq, Repr

/-- The host-supplied context of a decode call: the configured
`maxDetections` / `threshold` / class labels, the main-stream size, and the
abstract schema-table reader.

Modelled from the spec: `decodeTable` stands for `apParams::fb::GetFBApParams`
of the generated flatbuffers header `apParams.flatbuffers_generated.h`,
which is not part of this repository; it maps the de-striped schema bytes to
the decoded table of networks that the source's accessors walk. -/
structure Config where
  maxDetections : Nat
  threshold : ℚ
  classes : List String
  width : Nat
  height : Nat
  decodeTable : List Nat → List FBNetwork

/-- The loop of `Process` that surfaces detections: for each surviving
detection, `assert(data.vClasses[i] < classes_.size())` (a failed assert
aborts - undefined outcome), then a `Detection` is built from the class, its
label, the score and the box. -/
def buildDetections (data : ObjData) (classes : List String) :
    Res (List Detection) :=
  resMapM (fun i =>
      match data.vClasses.get? i, data.vScores.get? i, data.vBbox.get? i with
      | some c, some s, some bb =>
        if c < classes.length then
          .ok { category := c, label := classes.getD c (String.mk []),
                confidence := s, x := bb.mXmin, y := bb.mYmin,
                width := (bb.mXmax : ℤ) - (bb.mXmin : ℤ),
                height := (bb.mYmax : ℤ) - (bb.mYmin : ℤ) }
        else .ub
      | _, _, _ => (.ub : Res Detection))
    (List.range data.numDetections)

/-- The first three stages of a decode call in their `Process` order:
header parse, schema interpretation, layout planning. -/
def preDecode (cfg : Config) (buf : Nat → Nat) :
    Res (DnnHeader × List OutputTensorApParams × Nat) :=
  resCase (parseHeader buf strideConst) .ub Res.err fun hs =>
    resCase (parseApParams (cfg.decodeTable hs.2) hs.1.networkId) .ub Res.err
      fun ps =>
      resCase (populateOutputBodyInfo ps) .ub Res.err fun total =>
        .ok (hs.1, ps, total)

/-- The planned total element count when the first three stages succeed. -/
def prefixTotal (cfg : Config) (buf : Nat → Nat) : Option Nat :=
  match preDecode cfg buf with
  | .ok (_, _, total) => some total
  | _ => none

/-- The `MobileNet::Process`: `none` models a request without an output tensor
in its metadata.  Every stage failure is logged and makes `Process` return
`false`; a successful decode with at least one surviving detection sets the
`object_detect.results` metadata (the `Option (List Detection)` component)
and *still* returns `false`. -/
def Process (cfg : Config) :
    Option (Nat → Nat) → Res (Bool × Option (List Detection))
  | none => .ok (false, none)
  | some buf =>
    resCase (preDecode cfg buf) .ub (fun _ => .ok (false, none)) fun pre =>
      resCase (parseOutputTensorBody (fun n => buf (strideConst + n)) strideConst
          pre.2.1 pre.1.maxLineLen pre.2.2) .ub (fun _ => .ok (false, none)) fun dst =>
        resCase (processOutputTensor pre.2.2 dst cfg.maxDetections cfg.threshold
            cfg.width cfg.height) .ub (fun _ => .ok (false, none)) fun data =>
          if data.numDetections ≠ 0 then
            resCase (buildDetections data cfg.classes) .ub (fun _ => .ub)
              fun dets => .ok (false, some dets)
          else .ok (false, none)

/-! ### Spec-side auxiliaries and concrete test inputs -/

/-- The true mathematical product of a descriptor's dimension sizes. -/
def prodSizes (p : OutputTensorApParams) : Nat :=
  (p.vecDim.map fun d => d.size).prod

/-- A buffer whose header declares `frameValid = 1`, `apParamSize = 30`, and
whose other bytes equal their own offset (for de-stripe round-trip checks). -/
def cbuf3 : Nat → Nat := fun n =>
  if n = 5 then 0 else if n = 4 then 30 else if n = 0 then 1 else n % 256

/-- A single-tensor schema network: one 1-element 8-bit output tensor
(planned total 1, not 61). -/
def c1net : FBNetwork :=
  { id := 0
    outputTensors :=
      [{ id := 0, dimensions := [⟨0, 1, 0, 0⟩], bitsPerElement := 8,
         shift := 0, scale := 1, format := 1 }] }

/-- A buffer with a valid frame, `maxLineLen = 64` and all other header
fields zero. -/
def c1buf : Nat → Nat := fun n => if n = 0 then 1 else if n = 2 then 64 else 0

/-- A decode context whose schema reader yields `c1net`. -/
def c1cfg : Config :=
  { maxDetections := 5, threshold := 3 / 10, classes := [], width := 100,
    height := 100, decodeTable := fun _ => [c1net] }

/-- The header `parseHeader` extracts from `c1buf`. -/
def c1hdr : DnnHeader :=
  { frameValid := 1, frameCount := 0, maxLineLen := 64, apParamSize := 0,
    networkId := 0, tensorType := 0 }

/-- The descriptor list `parseApParams` extracts from `c1net`. -/
def c1params : List OutputTensorApParams :=
  [{ id := 0, vecDim := [⟨0, 1, 0, 0⟩], bitsPerElement := 8, shift := 0,
     scale := 1, format := 1 }]

/-- A schema network containing a descriptor with a dimension of size 0. -/
def c2net : FBNetwork :=
  { id := 0
    outputTensors :=
      [{ id := 0, dimensions := [⟨0, 0, 0, 0⟩], bitsPerElement := 8,
         shift := 0, scale := 1, format := 1 }] }

/-- A decode context whose schema reader yields `c2net`. -/
def c2cfg : Config :=
  { maxDetections := 5, threshold := 3 / 10, classes := [], width := 100,
    height := 100, decodeTable := fun _ => [c2net] }

/-- A 4-dimensional descriptor (sizes `[2,2,2,2]`) whose serialization order
is the reverse of its ordinal order: a reorder is required and the rank
exceeds 3. -/
def p4 : OutputTensorApParams :=
  { id := 0
    vecDim := [⟨0, 2, 3, 0⟩, ⟨1, 2, 2, 0⟩, ⟨2, 2, 1, 0⟩, ⟨3, 2, 0, 0⟩]
    bitsPerElement := 8, shift := 0, scale := 1, format := 1 }

/-- The 2-dimensional descriptor of the permutation test: ordinal sizes
`[2, 3]` with `serializationIndex` reversed relative to `ordinal`. -/
def p5 : OutputTensorApParams :=
  { id := 0
    vecDim := [⟨0, 2, 1, 0⟩, ⟨1, 3, 0, 0⟩]
    bitsPerElement := 8, shift := 0, scale := 1, format := 1 }

/-- A descriptor with a dimension of size 0. -/
def pA : OutputTensorApParams :=
  { id := 0, vecDim := [⟨0, 0, 0, 0⟩], bitsPerElement := 8, shift := 0,
    scale := 1, format := 1 }

/-- A descriptor whose dimension sizes multiply to `65535 ^ 3`, far past
`UINT32_MAX`. -/
def pB : OutputTensorApParams :=
  { id := 1
    vecDim := [⟨0, 65535, 0, 0⟩, ⟨1, 65535, 1, 0⟩, ⟨2, 65535, 2, 0⟩]
    bitsPerElement := 8, shift := 0, scale := 1, format := 1 }

/-- A 61-element decoded array whose declared detection count (element 60)
is `2^32`: it exceeds 10, so the claim expects a clamp to 10. -/
def d9 : List ℚ := List.replicate 60 0 ++ [(4294967296 : ℚ)]

/-- The SSD interpretation chain on a decoded array: record extraction
followed by filtering/clamping (the two consecutive calls of
`processOutputTensor` for a 61-element array). -/
def ssdChain (data : List ℚ) (maxDetections : Nat) (thr : ℚ)
    (width height : Nat) : Res ObjData :=
  resCase (createSsd data PplTotalDetections) .ub Res.err fun tensor =>
    analyseSsd tensor maxDetections thr width height

/-- The surviving candidate indices according to the specification: among
the first `n` candidates in array order, those whose score
(`data[50 + i]`) is at least the threshold. -/
def keptIdx (data : List ℚ) (thr : ℚ) (n : Nat) : List Nat :=
  (List.range n).filter fun i => ¬ data.getD (50 + i) 0 < thr

/-- The detection count declared by element 60 of the decoded array
(truncated toward zero as the `unsigned int` conversion does). -/
def declaredCount (data : List ℚ) : Nat := truncToNat (data.getD 60 0)

/-- Candidate `i`'s score, `data[50 + i]`. -/
def candScore (data : List ℚ) (i : Nat) : ℚ := data.getD (50 + i) 0

/-- Candidate `i`'s class value, `data[40 + i]`. -/
def candClass (data : List ℚ) (i : Nat) : ℚ := data.getD (40 + i) 0

/-- Candidate `i`'s pixel box: corners `yMin = data[i]`,
`xMin = data[i + 10]`, `yMax = data[i + 20]`, `xMax = data[i + 30]` scaled
by the wrapped `width - 1` / `height - 1` factors, rounded half away from
zero and truncated to `uint16_t`. -/
def candBboxPix (data : List ℚ) (w1 h1 : Nat) (i : Nat) : PplBbox :=
  { mXmin := (roundC (data.getD (i + 10) 0 * w1)).toNat
    mYmin := (roundC (data.getD i 0 * h1)).toNat
    mXmax := (roundC (data.getD (i + 30) 0 * w1)).toNat
    mYmax := (roundC (data.getD (i + 20) 0 * h1)).toNat }

/-- The pixel box the filtering loop computes for candidate `i` of a tensor
record (when every conversion is representable). -/
def tensorPix (tensor : SsdTensor) (w1 h1 : Nat) (i : Nat) : PplBbox :=
  { mXmin := (roundC ((tensor.bboxes.getD i ⟨0, 0, 0, 0⟩).xMin * w1)).toNat
    mYmin := (roundC ((tensor.bboxes.getD i ⟨0, 0, 0, 0⟩).yMin * h1)).toNat
    mXmax := (roundC ((tensor.bboxes.getD i ⟨0, 0, 0, 0⟩).xMax * w1)).toNat
    mYmax := (roundC ((tensor.bboxes.getD i ⟨0, 0, 0, 0⟩).yMax * h1)).toNat }

/-- All integer conversions of candidate `i` of a tensor record are
representable (class in `(-1, 256)`, each scaled rounded corner in
`[0, 65536)`). -/
def convOk (tensor : SsdTensor) (w1 h1 : Nat) (i : Nat) : Prop :=
  -1 < tensor.classes.getD i 0 ∧ tensor.classes.getD i 0 < 256 ∧
  0 ≤ roundC ((tensor.bboxes.getD i ⟨0, 0, 0, 0⟩).xMin * w1) ∧
  roundC ((tensor.bboxes.getD i ⟨0, 0, 0, 0⟩).xMin * w1) < 65536 ∧
  0 ≤ roundC ((tensor.bboxes.getD i ⟨0, 0, 0, 0⟩).yMin * h1) ∧
  roundC ((tensor.bboxes.getD i ⟨0, 0, 0, 0⟩).yMin * h1) < 65536 ∧
  0 ≤ roundC ((tensor.bboxes.getD i ⟨0, 0, 0, 0⟩).xMax * w1) ∧
  roundC ((tensor.bboxes.getD i ⟨0, 0, 0, 0⟩).xMax * w1) < 65536 ∧
  0 ≤ roundC ((tensor.bboxes.getD i ⟨0, 0, 0, 0⟩).yMax * h1) ∧
  roundC ((tensor.bboxes.getD i ⟨0, 0, 0, 0⟩).yMax * h1) < 65536

/-- All integer conversions of candidate `i` of a 61-element decoded array
are representable. -/
def dataConvOk (data : List ℚ) (w1 h1 : Nat) (i : Nat) : Prop :=
  -1 < candClass data i ∧ candClass data i < 256 ∧
  0 ≤ roundC (data.getD (i + 10) 0 * w1) ∧
  roundC (data.getD (i + 10) 0 * w1) < 65536 ∧
  0 ≤ roundC (data.getD i 0 * h1) ∧
  roundC (data.getD i 0 * h1) < 65536 ∧
  0 ≤ roundC (data.getD (i + 30) 0 * w1) ∧
  roundC (data.getD (i + 30) 0 * w1) < 65536 ∧
  0 ≤ roundC (data.getD (i + 20) 0 * h1) ∧
  roundC (data.getD (i + 20) 0 * h1) < 65536

/-- An all-zero decoded array (61 elements). -/
def d9w : List ℚ := List.replicate 61 0

/-! ## Theorems -/

/-- The `resCase` on a normal value selects the continuation. -/
theorem resCase_ok {α β : Type} (a : α) (fub : Res β) (ferr : Err → Res β)
    (fok : α → Res β) : resCase (Res.ok a) fub ferr fok = fok a := rfl

/-- The `resCase` on an error selects the error branch. -/
theorem resCase_err {α β : Type} (e : Err) (fub : Res β) (ferr : Err → Res β)
    (fok : α → Res β) : resCase (Res.err e) fub ferr fok = ferr e := rfl

/-- The `resCase` on undefined behaviour propagates it. -/
theorem resCase_ub {α β : Type} (fub : Res β) (ferr : Err → Res β)
    (fok : α → Res β) : resCase (Res.ub : Res α) fub ferr fok = fub := rfl

/-- The de-striping loop reads consecutive buffer offsets: starting at line
offset `i ≤ stride` of the line at `base`, the `j`-th copied byte is the
buffer byte at absolute offset `base + i + j`. -/
theorem destripe_eq_map (buf : Nat → Nat) (stride : Nat) (hs : 0 < stride) :
    ∀ (n base i : Nat), i ≤ stride →
      destripe buf stride n base i =
        (List.range n).map fun j => buf (base + i + j) % 256 := by
  intro n
  induction n with
  | zero => intro base i _; simp [destripe]
  | succ n ih =>
    intro base i hi
    rw [List.range_succ_eq_map, List.map_cons, List.map_map]
    by_cases h : stride ≤ i
    · have hieq : i = stride := Nat.le_antisymm hi h
      rw [destripe, if_pos ⟨hs.ne', h⟩, ih (base + stride + MipiPhSize) 1 (by omega)]
      refine List.cons_eq_cons.mpr ⟨?_, ?_⟩
      · have : base + stride + MipiPhSize = base + i + 0 := by
          simp only [MipiPhSize]; omega
        rw [this]
      · refine List.map_congr_left fun j _ => ?_
        simp only [Function.comp_apply]
        have : base + stride + MipiPhSize + 1 + j = base + i + Nat.succ j := by
          simp only [MipiPhSize]; omega
        rw [this]
    · have h' : ¬ (stride ≠ 0 ∧ stride ≤ i) := fun hc => h hc.2
      rw [destripe, if_neg h', ih base (i + 1) (by omega)]
      refine List.cons_eq_cons.mpr ⟨?_, ?_⟩
      · have : base + i = base + i + 0 := by omega
        rw [this]
      · refine List.map_congr_left fun j _ => ?_
        simp only [Function.comp_apply]
        have : base + (i + 1) + j = base + i + Nat.succ j := by omega
        rw [this]

/-- C3: for every stride greater than 12 and every schema size, byte `j` of
the schema buffer recovered by the Header Parser equals the raw-buffer byte
at line `(12 + j) / stride`, in-line offset `(12 + j) % stride`: bytes are
read starting at offset 12 of line 0 and, past every wrap point, from offset
0 of the next stride-sized block. -/
theorem C3_header_destripe (buf : Nat → Nat) (stride j : Nat)
    (hs : 12 < stride) (hj : j < (headerOf buf).apParamSize) :
    (schemaBytesOf buf stride).get? j =
      some (buf (stride * ((12 + j) / stride) + (12 + j) % stride) % 256) := by
  unfold schemaBytesOf
  rw [destripe_eq_map buf stride (by omega) _ 0 DnnHeaderSize
      (by unfold DnnHeaderSize; omega)]
  rw [List.get?_map, List.get?_range hj]
  have : stride * ((12 + j) / stride) + (12 + j) % stride = 0 + DnnHeaderSize + j := by
    unfold DnnHeaderSize
    have := Nat.div_add_mod (12 + j) stride
    omega
  rw [this]
  rfl

/-- C3 witness: at stride 20, schema byte 25 of `cbuf3` is raw-buffer byte
`20 * 1 + 17 = 37`. -/
theorem C3_header_destripe_witness :
    (12 < 20 ∧ 25 < (headerOf cbuf3).apParamSize) ∧
      (schemaBytesOf cbuf3 20).get? 25 =
        some (cbuf3 (20 * ((12 + 25) / 20) + (12 + 25) % 20) % 256) :=
  ⟨⟨by decide, by decide⟩, C3_header_destripe cbuf3 20 25 (by decide) (by decide)⟩

/-- C1 counterexample: a valid frame whose schema plans a total of 1 element
(not 61) passes the Layout Planner (`prefixTotal = some 1`, so all three
front stages succeeded and the tensor body decode is reached and runs), and
the decode finishes without any error signal, producing no detections - it
does not fail before tensor-body decoding as the claim states. -/
theorem C1_counterexample :
    prefixTotal c1cfg c1buf = some 1 ∧ (1 : Nat) ≠ 61 ∧
      Process c1cfg (some c1buf) = Res.ok (false, none) := by
  exact ⟨by decide, by decide, by decide⟩

/-- C1 (amended): whenever the first three stages succeed with a planned
total different from 61, the decode never surfaces detections: any normal
outcome of `Process` carries no `object_detect.results` metadata.  (The 61
check lives in `processOutputTensor`, after the tensor body decode.) -/
theorem C1_no_detections_when_total_ne_61 (cfg : Config) (buf : Nat → Nat)
    (hdr : DnnHeader) (ps : List OutputTensorApParams) (t : Nat)
    (hpre : preDecode cfg buf = Res.ok (hdr, ps, t)) (ht : t ≠ 61)
    (b : Bool) (r : Option (List Detection))
    (hp : Process cfg (some buf) = Res.ok (b, r)) : r = none := by
  simp only [Process] at hp
  rw [hpre, resCase_ok] at hp
  simp only at hp
  have h61 : t ≠ PplDnnOutputTensorSize := by
    unfold PplDnnOutputTensorSize; exact ht
  cases hbody : parseOutputTensorBody (fun n => buf (strideConst + n)) strideConst
      ps hdr.maxLineLen t with
  | ub => rw [hbody, resCase_ub] at hp; exact absurd hp (by simp)
  | err e => rw [hbody, resCase_err] at hp; simp at hp; exact hp.2.symm
  | ok dst =>
    rw [hbody, resCase_ok] at hp
    have hproc : processOutputTensor t dst cfg.maxDetections cfg.threshold
        cfg.width cfg.height = Res.ok emptyObjData := by
      unfold processOutputTensor
      rw [if_pos h61]
    rw [hproc, resCase_ok] at hp
    simp [emptyObjData] at hp
    exact hp.2.symm

/-- C1 amended witness: the concrete input `c1cfg`/`c1buf` satisfies the
hypotheses (planned total 1, a normal `Process` outcome), and indeed no
metadata is produced. -/
theorem C1_no_detections_witness :
    preDecode c1cfg c1buf = Res.ok (c1hdr, c1params, 1) ∧
      (none : Option (List Detection)) = none :=
  ⟨by decide,
   C1_no_detections_when_total_ne_61 c1cfg c1buf c1hdr c1params 1 (by decide)
     (by decide) false none (by decide)⟩

/-- C2 (code bug): a schema descriptor containing a dimension of size 0
drives `populateOutputBodyInfo` into evaluating `UINT32_MAX / dim.size` with
a zero divisor - integer division by zero, undefined behaviour - instead of
terminating with an error result: the decode of this well-formed-frame,
malformed-schema input is undefined. -/
theorem C2_zero_size_dimension_is_ub :
    Process c2cfg (some c1buf) = Res.ub ∧
      populateOutputBodyInfo
        [{ id := 0, vecDim := [⟨0, 0, 0, 0⟩], bitsPerElement := 8, shift := 0,
           scale := 1, format := 1 }] = Res.ub := by
  exact ⟨by decide, by decide⟩

/-- C6 counterexample: in the descriptor list `[pA, pB]` the true product of
`pB`'s dimension sizes (`65535 ^ 3`) exceeds `UINT32_MAX`, yet the Layout
Planner does not fail with the overflow error: it hits the division by zero
on `pA`'s 0-sized dimension first (undefined behaviour). -/
theorem C6_counterexample :
    U32MAX < prodSizes pB ∧
      populateOutputBodyInfo [pA, pB] ≠ Res.err Err.layoutOverflow ∧
      populateOutputBodyInfo [pA, pB] = Res.ub := by
  exact ⟨by decide, by decide, by decide⟩

/-- Element `e` of the 8-bit extraction loop comes from buffer offset
`base + stride * (e / L) + e % L`: line `e / L`, in-line offset `e % L`. -/
theorem extract8_get? (buf : Nat → Nat) (format shift : Nat) (scale : ℚ)
    (L stride : Nat) (hL : 0 < L) :
    ∀ (n base rem e : Nat), e < rem → rem ≤ n * L →
      (extract8 buf format shift scale L stride n base rem).get? e =
        some (getVal8 format (buf (base + stride * (e / L) + e % L)) shift scale) := by
  intro n
  induction n with
  | zero => intro base rem e he hr; omega
  | succ n ih =>
    intro base rem e he hr
    simp only [extract8]
    by_cases hrem : rem ≤ L
    · have hk : min L rem = rem := by omega
      rw [if_pos hrem, List.append_nil, hk]
      have heL : e < L := by omega
      rw [List.get?_map, List.get?_range he, Nat.div_eq_of_lt heL,
        Nat.mod_eq_of_lt heL]
      simp
    · have hk : min L rem = L := by omega
      rw [if_neg hrem, hk]
      by_cases he2 : e < L
      · rw [List.get?_append (by simpa using he2), List.get?_map,
          List.get?_range (by simpa using he2), Nat.div_eq_of_lt he2,
          Nat.mod_eq_of_lt he2]
        simp
      · have hLe : L ≤ e := by omega
        rw [List.get?_append_right (by simpa using hLe)]
        have hlen : ((List.range L).map fun j =>
            getVal8 format (buf (base + j)) shift scale).length = L := by simp
        rw [hlen]
        rw [ih (base + stride) (rem - L) (e - L) (by omega) (by
          have : (n + 1) * L = n * L + L := by ring
          omega)]
        have hdiv : e / L = (e - L) / L + 1 := Nat.div_eq_sub_div hL hLe
        have hmod : e % L = (e - L) % L := Nat.mod_eq_sub_mod hLe
        rw [hdiv, hmod]
        have harg : base + stride + stride * ((e - L) / L) + (e - L) % L =
            base + stride * ((e - L) / L + 1) + (e - L) % L := by ring
        rw [harg]

/-- Element `e` of the 16-bit extraction loop is assembled from the byte
pair at buffer offset `base + stride * (e / epl) + 2 * (e % epl)` where
`epl = ceil(maxLineLen / 2)` is the number of byte pairs consumed per line. -/
theorem extract16_get? (buf : Nat → Nat) (format shift : Nat) (scale : ℚ)
    (L stride : Nat) (hL : 0 < L) :
    ∀ (n base rem e : Nat), e < rem → rem ≤ n * ((L + 1) / 2) →
      (extract16 buf format shift scale L stride n base rem).get? e =
        some (getVal16 format
          (buf (base + stride * (e / ((L + 1) / 2)) + 2 * (e % ((L + 1) / 2))))
          (buf (base + stride * (e / ((L + 1) / 2)) + 2 * (e % ((L + 1) / 2)) + 1))
          shift scale) := by
  have hE : 0 < (L + 1) / 2 := by omega
  intro n
  induction n with
  | zero => intro base rem e he hr; omega
  | succ n ih =>
    intro base rem e he hr
    simp only [extract16]
    by_cases hrem : rem ≤ (L + 1) / 2
    · have hk : min ((L + 1) / 2) rem = rem := by omega
      rw [if_pos hrem, List.append_nil, hk]
      have heL : e < (L + 1) / 2 := by omega
      rw [List.get?_map, List.get?_range he, Nat.div_eq_of_lt heL,
        Nat.mod_eq_of_lt heL]
      simp
    · have hk : min ((L + 1) / 2) rem = (L + 1) / 2 := by omega
      rw [if_neg hrem, hk]
      by_cases he2 : e < (L + 1) / 2
      · rw [List.get?_append (by simpa using he2), List.get?_map,
          List.get?_range (by simpa using he2), Nat.div_eq_of_lt he2,
          Nat.mod_eq_of_lt he2]
        simp
      · have hLe : (L + 1) / 2 ≤ e := by omega
        rw [List.get?_append_right (by simpa using hLe)]
        have hlen : ((List.range ((L + 1) / 2)).map fun j =>
            getVal16 format (buf (base + 2 * j)) (buf (base + 2 * j + 1))
              shift scale).length = (L + 1) / 2 := by simp
        rw [hlen]
        rw [ih (base + stride) (rem - (L + 1) / 2) (e - (L + 1) / 2) (by omega)
          (by
            have : (n + 1) * ((L + 1) / 2) = n * ((L + 1) / 2) + (L + 1) / 2 := by
              ring
            omega)]
        have hdiv : e / ((L + 1) / 2) = (e - (L + 1) / 2) / ((L + 1) / 2) + 1 :=
          Nat.div_eq_sub_div hE hLe
        have hmod : e % ((L + 1) / 2) = (e - (L + 1) / 2) % ((L + 1) / 2) :=
          Nat.mod_eq_sub_mod hLe
        rw [hdiv, hmod]
        have harg : base + stride +
            stride * ((e - (L + 1) / 2) / ((L + 1) / 2)) +
            2 * ((e - (L + 1) / 2) % ((L + 1) / 2)) =
            base + stride * ((e - (L + 1) / 2) / ((L + 1) / 2) + 1) +
            2 * ((e - (L + 1) / 2) % ((L + 1) / 2)) := by ring
        rw [harg]

/-- C7: every 8-bit tensor element decodes to `(raw - shift) * scale`, where
`raw` is the source byte (at the line/offset the extraction loop reaches for
that element) reinterpreted as signed or unsigned according to the
descriptor's format. -/
theorem C7_dequant8 (buf : Nat → Nat) (format shift : Nat) (scale : ℚ)
    (L stride n base size e : Nat) (hL : 0 < L) (hn : size ≤ n * L)
    (he : e < size) :
    (extract8 buf format shift scale L stride n base size).get? e =
      some ((((if format = TYPE_SIGNED
               then toSigned8 (buf (base + stride * (e / L) + e % L))
               else ((buf (base + stride * (e / L) + e % L) % 256 : Nat) : ℤ)) : ℚ)
            - (shift : ℚ)) * scale) := by
  rw [extract8_get? buf format shift scale L stride hL n base size e he hn]
  by_cases hf : format = TYPE_SIGNED <;> simp [getVal8, hf]

/-- C7 witness: an unsigned raw byte 200 with `shift = 128`, `scale = 1/2`
decodes to 36. -/
theorem C7_dequant8_witness :
    (extract8 (fun _ => 200) TYPE_UNSIGNED 128 (1 / 2) 4 8 1 0 3).get? 1 =
      some 36 := by
  have h := C7_dequant8 (fun _ => 200) TYPE_UNSIGNED 128 (1 / 2) 4 8 1 0 3 1
    (by decide) (by decide) (by decide)
  rw [h]
  norm_num [TYPE_UNSIGNED, TYPE_SIGNED]

/-- C8: every 16-bit tensor element is assembled from two consecutive source
bytes low byte first (`byte0 + 256 * byte1`), interpreted as a signed or
unsigned 16-bit integer according to the descriptor's format, and then
de-quantized as `(value - shift) * scale`. -/
theorem C8_dequant16 (buf : Nat → Nat) (format shift : Nat) (scale : ℚ)
    (L stride n base size2 e : Nat) (hL : 0 < L)
    (hn : size2 ≤ n * ((L + 1) / 2)) (he : e < size2) :
    (extract16 buf format shift scale L stride n base size2).get? e =
      some ((((if format = TYPE_SIGNED
               then toSigned16
                 (buf (base + stride * (e / ((L + 1) / 2)) + 2 * (e % ((L + 1) / 2))) % 256 +
                  256 * (buf (base + stride * (e / ((L + 1) / 2)) + 2 * (e % ((L + 1) / 2)) + 1) % 256))
               else ((buf (base + stride * (e / ((L + 1) / 2)) + 2 * (e % ((L + 1) / 2))) % 256 +
                  256 * (buf (base + stride * (e / ((L + 1) / 2)) + 2 * (e % ((L + 1) / 2)) + 1) % 256) : Nat) : ℤ)) : ℚ)
            - (shift : ℚ)) * scale) := by
  rw [extract16_get? buf format shift scale L stride hL n base size2 e he hn]
  have harr : ∀ x y : Nat, bytes_to_u16 y x = x % 256 + 256 * (y % 256) := by
    intro x y
    unfold bytes_to_u16
    ring
  simp only [getVal16, harr]
  by_cases hf : format = TYPE_SIGNED <;> simp [hf]

/-- C8 witness: bytes `(0x34, 0x12)` assemble low-byte-first to `0x1234 =
4660`; with `shift = 0`, `scale = 1` the decoded value is 4660. -/
theorem C8_dequant16_witness :
    (extract16 (fun n => if n % 2 = 0 then 52 else 18) TYPE_UNSIGNED 0 1 4 8 1 0 2).get? 0 =
      some 4660 := by
  have h := C8_dequant16 (fun n => if n % 2 = 0 then 52 else 18) TYPE_UNSIGNED 0 1
    4 8 1 0 2 0 (by decide) (by decide) (by decide)
  rw [h]
  norm_num [TYPE_UNSIGNED, TYPE_SIGNED]

/-- A normal outcome of the dimension-size loop is the exact product of the
accumulator with all dimension sizes, and (when at least one dimension was
multiplied in) it is strictly below `UINT32_MAX`: the pre-multiplication
check makes wrapping impossible. -/
theorem dimLoop_ok : ∀ (dims : List Dimensions) (acc t : Nat),
    totalDimensionSizeLoop dims acc = Res.ok t →
    t = acc * (dims.map Dimensions.size).prod ∧ (dims ≠ [] → t < U32MAX) := by
  intro dims
  induction dims with
  | nil =>
    intro acc t h
    simp only [totalDimensionSizeLoop] at h
    cases h
    simp
  | cons d rest ih =>
    intro acc t h
    simp only [totalDimensionSizeLoop] at h
    by_cases h0 : d.size = 0
    · rw [if_pos h0] at h; cases h
    · rw [if_neg h0] at h
      by_cases hc : U32MAX / d.size ≤ acc
      · rw [if_pos hc] at h; cases h
      · rw [if_neg hc] at h
        obtain ⟨ht, hlt⟩ := ih (acc * d.size) t h
        have hbound : acc * d.size < U32MAX := by
          have hs : 0 < d.size := Nat.pos_of_ne_zero h0
          have h1 : (acc + 1) * d.size ≤ U32MAX / d.size * d.size :=
            Nat.mul_le_mul_right d.size (Nat.succ_le_of_lt (Nat.lt_of_not_le hc))
          have h2 : U32MAX / d.size * d.size ≤ U32MAX := Nat.div_mul_le_self _ _
          have h3 : acc * d.size + d.size ≤ U32MAX := by
            have : (acc + 1) * d.size = acc * d.size + d.size := by ring
            omega
          omega
        refine ⟨?_, fun _ => ?_⟩
        · rw [ht, List.map_cons, List.prod_cons]
          ring
        · rcases List.eq_nil_or_concat rest with hrest | _
          · subst hrest
            simp only [totalDimensionSizeLoop] at h
            cases h
            exact hbound
          · by_cases hr : rest = []
            · subst hr
              simp only [totalDimensionSizeLoop] at h
              cases h
              exact hbound
            · exact hlt hr

/-- The dimension-size loop only ever errors with the overflow error. -/
theorem dimLoop_err : ∀ (dims : List Dimensions) (acc : Nat) (e : Err),
    totalDimensionSizeLoop dims acc = Res.err e → e = Err.layoutOverflow := by
  intro dims
  induction dims with
  | nil => intro acc e h; simp only [totalDimensionSizeLoop] at h; cases h
  | cons d rest ih =>
    intro acc e h
    simp only [totalDimensionSizeLoop] at h
    by_cases h0 : d.size = 0
    · rw [if_pos h0] at h; cases h
    · rw [if_neg h0] at h
      by_cases hc : U32MAX / d.size ≤ acc
      · rw [if_pos hc] at h; cases h; rfl
      · rw [if_neg hc] at h; exact ih _ _ h

/-- With every dimension size non-zero, the dimension-size loop never hits
the division by zero. -/
theorem dimLoop_ne_ub : ∀ (dims : List Dimensions) (acc : Nat),
    (∀ d ∈ dims, d.size ≠ 0) →
    totalDimensionSizeLoop dims acc ≠ Res.ub := by
  intro dims
  induction dims with
  | nil => intro acc _ h; simp only [totalDimensionSizeLoop] at h; exact Res.noConfusion h
  | cons d rest ih =>
    intro acc hnz h
    simp only [totalDimensionSizeLoop] at h
    rw [if_neg (hnz d (by simp))] at h
    by_cases hc : U32MAX / d.size ≤ acc
    · rw [if_pos hc] at h; exact Res.noConfusion h
    · rw [if_neg hc] at h
      exact ih _ (fun x hx => hnz x (by simp [hx])) h

/-- A normal outcome of the `totalOutSize` accumulation is the exact sum of
the accumulator with the true per-descriptor element counts, and stays
strictly below `UINT32_MAX`. -/
theorem sumLoop_ok : ∀ (ps : List OutputTensorApParams) (acc t : Nat),
    acc < U32MAX → totalOutSizeLoop ps acc = Res.ok t →
    t = acc + (ps.map prodSizes).sum ∧ t < U32MAX := by
  intro ps
  induction ps with
  | nil =>
    intro acc t hacc h
    simp only [totalOutSizeLoop] at h
    cases h
    simpa using hacc
  | cons p rest ih =>
    intro acc t hacc h
    simp only [totalOutSizeLoop] at h
    cases hd : totalDimensionSizeLoop p.vecDim 1 with
    | ub => rw [hd, resCase_ub] at h; exact Res.noConfusion h
    | err e => rw [hd, resCase_err] at h; exact Res.noConfusion h
    | ok tds =>
      rw [hd, resCase_ok] at h
      try simp only at h
      by_cases hc : U32MAX - tds ≤ acc
      · rw [if_pos hc] at h; exact Res.noConfusion h
      · rw [if_neg hc] at h
        obtain ⟨htds, _⟩ := dimLoop_ok p.vecDim 1 tds hd
        have htds' : tds = prodSizes p := by
          rw [htds]; unfold prodSizes; ring
        obtain ⟨ht, hlt⟩ := ih (acc + tds) t (by omega) h
        refine ⟨?_, hlt⟩
        rw [ht, List.map_cons, List.sum_cons, htds']
        ring

/-- The `totalOutSize` accumulation only ever errors with the overflow
error. -/
theorem sumLoop_err : ∀ (ps : List OutputTensorApParams) (acc : Nat) (e : Err),
    totalOutSizeLoop ps acc = Res.err e → e = Err.layoutOverflow := by
  intro ps
  induction ps with
  | nil => intro acc e h; simp only [totalOutSizeLoop] at h; cases h
  | cons p rest ih =>
    intro acc e h
    simp only [totalOutSizeLoop] at h
    cases hd : totalDimensionSizeLoop p.vecDim 1 with
    | ub => rw [hd, resCase_ub] at h; exact Res.noConfusion h
    | err e' =>
      rw [hd, resCase_err] at h
      cases h
      exact dimLoop_err p.vecDim 1 _ hd
    | ok tds =>
      rw [hd, resCase_ok] at h
      try simp only at h
      by_cases hc : U32MAX - tds ≤ acc
      · rw [if_pos hc] at h; cases h; rfl
      · rw [if_neg hc] at h; exact ih _ _ h

/-- With every dimension size non-zero, the `totalOutSize` accumulation
never hits undefined behaviour. -/
theorem sumLoop_ne_ub : ∀ (ps : List OutputTensorApParams) (acc : Nat),
    (∀ p ∈ ps, ∀ d ∈ p.vecDim, d.size ≠ 0) →
    totalOutSizeLoop ps acc ≠ Res.ub := by
  intro ps
  induction ps with
  | nil => intro acc _ h; simp only [totalOutSizeLoop] at h; exact Res.noConfusion h
  | cons p rest ih =>
    intro acc hnz h
    simp only [totalOutSizeLoop] at h
    cases hd : totalDimensionSizeLoop p.vecDim 1 with
    | ub => exact dimLoop_ne_ub p.vecDim 1 (hnz p (by simp)) hd
    | err e => rw [hd, resCase_err] at h; exact Res.noConfusion h
    | ok tds =>
      rw [hd, resCase_ok] at h
      try simp only at h
      by_cases hc : U32MAX - tds ≤ acc
      · rw [if_pos hc] at h; exact Res.noConfusion h
      · rw [if_neg hc] at h
        exact ih _ (fun x hx => hnz x (by simp [hx])) h

/-- C6 (amended): for every descriptor list whose dimension sizes are all
non-zero, whenever the true product of some descriptor's dimension sizes, or
the true sum of all per-descriptor element counts, exceeds `UINT32_MAX`, the
Layout Planner fails with the overflow error (`LayoutOverflow`) and no
wrapped element count is produced.  (All-non-zero is needed: a zero-sized
dimension in an earlier descriptor reaches the division by zero first, see
the counterexample.) -/
theorem C6_layout_overflow (ps : List OutputTensorApParams)
    (hnz : ∀ p ∈ ps, ∀ d ∈ p.vecDim, d.size ≠ 0)
    (hover : (∃ p ∈ ps, U32MAX < prodSizes p) ∨
      U32MAX < (ps.map prodSizes).sum) :
    populateOutputBodyInfo ps = Res.err Err.layoutOverflow := by
  have hsum : U32MAX < (ps.map prodSizes).sum := by
    rcases hover with ⟨p, hp, hgt⟩ | h
    · exact lt_of_lt_of_le hgt
        (List.single_le_sum (fun _ _ => Nat.zero_le _) _
          (List.mem_map_of_mem _ hp))
    · exact h
  cases hres : totalOutSizeLoop ps 0 with
  | ok t =>
    obtain ⟨ht, hlt⟩ := sumLoop_ok ps 0 t (by norm_num [U32MAX]) hres
    omega
  | err e =>
    have he := sumLoop_err ps 0 e hres
    subst he
    simp only [populateOutputBodyInfo, hres, resCase_err]
  | ub => exact absurd hres (sumLoop_ne_ub ps 0 hnz)

/-- C6 amended witness: `pB` alone (all sizes 65535, product `65535^3`)
drives the Layout Planner into the overflow failure. -/
theorem C6_layout_overflow_witness :
    U32MAX < prodSizes pB ∧
      populateOutputBodyInfo [pB] = Res.err Err.layoutOverflow :=
  ⟨by decide,
   C6_layout_overflow [pB] (by decide)
     (Or.inl ⟨pB, by simp, by decide⟩)⟩

/-- C4 (code behaviour at the failing input): a 4-dimensional tensor whose
serialization order is reversed (a reorder is required, rank exceeds 3)
passes the Layout Planner and decodes *successfully* - the source only logs
"numDimensions value is 3 or higher" and breaks out of the preparation loop,
reordering just the first three dimensions - leaving a partially permuted
output (here: the 8 source values scattered over even indices, the odd
indices keeping their initial zeros) instead of failing with
`UnsupportedRank`. -/
theorem C4_rank4_decode_succeeds :
    sortingRequired p4 = true ∧ 3 < p4.numDimensions ∧
    populateOutputBodyInfo [p4] = Res.ok 16 ∧
    parseOutputTensorBody (fun n => n) strideConst [p4] 64 16 =
      Res.ok [getVal8 TYPE_UNSIGNED 0 0 1, 0, getVal8 TYPE_UNSIGNED 4 0 1, 0,
              getVal8 TYPE_UNSIGNED 2 0 1, 0, getVal8 TYPE_UNSIGNED 6 0 1, 0,
              getVal8 TYPE_UNSIGNED 1 0 1, 0, getVal8 TYPE_UNSIGNED 5 0 1, 0,
              getVal8 TYPE_UNSIGNED 3 0 1, 0, getVal8 TYPE_UNSIGNED 7 0 1, 0] :=
  ⟨by decide, by decide, by decide, by rfl⟩

/-- A `Process` outcome of the shape `.ok (false, none)` satisfies the C10
conclusion. -/
theorem ok_false_none {b : Bool} {r : Option (List Detection)}
    (h : (Res.ok ((false : Bool), (none : Option (List Detection))) :
        Res (Bool × Option (List Detection))) = Res.ok (b, r)) :
    b = false ∧ ∀ l, r = some l → l ≠ [] := by
  simp only [Res.ok.injEq, Prod.mk.injEq] at h
  exact ⟨h.1.symm, fun l hl => by rw [← h.2] at hl; exact Option.noConfusion hl⟩

/-- A normal `resMapM` outcome has one output per input. -/
theorem resMapM_ok_length {α β : Type} (f : α → Res β) :
    ∀ (xs : List α) (ys : List β),
      resMapM f xs = Res.ok ys → ys.length = xs.length := by
  intro xs
  induction xs with
  | nil => intro ys h; simp only [resMapM] at h; cases h; rfl
  | cons x xs ih =>
    intro ys h
    simp only [resMapM] at h
    cases hf : f x with
    | ub => rw [hf, resCase_ub] at h; exact Res.noConfusion h
    | err e => rw [hf, resCase_err] at h; exact Res.noConfusion h
    | ok y =>
      rw [hf, resCase_ok] at h
      cases hm : resMapM f xs with
      | ub => rw [hm, resCase_ub] at h; exact Res.noConfusion h
      | err e => rw [hm, resCase_err] at h; exact Res.noConfusion h
      | ok ys' =>
        rw [hm, resCase_ok] at h
        cases h
        simp [ih ys' hm]

/-- C10: `MobileNet::Process` returns `false` on every normal outcome - for
successful decodes, every failure path, and a missing output tensor alike -
and the `object_detect.results` metadata is set only when at least one
detection survives (a set metadata entry is never the empty list). -/
theorem C10_process_returns_false (cfg : Config) (frame : Option (Nat → Nat))
    (b : Bool) (r : Option (List Detection))
    (hp : Process cfg frame = Res.ok (b, r)) :
    b = false ∧ ∀ l, r = some l → l ≠ [] := by
  cases frame with
  | none =>
    simp only [Process] at hp
    exact ok_false_none hp
  | some buf =>
    simp only [Process] at hp
    cases hpre : preDecode cfg buf with
    | ub => rw [hpre, resCase_ub] at hp; exact Res.noConfusion hp
    | err e => rw [hpre, resCase_err] at hp; exact ok_false_none hp
    | ok pre =>
      rw [hpre, resCase_ok] at hp
      cases hbody : parseOutputTensorBody (fun n => buf (strideConst + n))
          strideConst pre.2.1 pre.1.maxLineLen pre.2.2 with
      | ub => rw [hbody, resCase_ub] at hp; exact Res.noConfusion hp
      | err e => rw [hbody, resCase_err] at hp; exact ok_false_none hp
      | ok dst =>
        rw [hbody, resCase_ok] at hp
        cases hproc : processOutputTensor pre.2.2 dst cfg.maxDetections
            cfg.threshold cfg.width cfg.height with
        | ub => rw [hproc, resCase_ub] at hp; exact Res.noConfusion hp
        | err e => rw [hproc, resCase_err] at hp; exact ok_false_none hp
        | ok data =>
          rw [hproc, resCase_ok] at hp
          by_cases hn : data.numDetections ≠ 0
          · rw [if_pos hn] at hp
            cases hdets : buildDetections data cfg.classes with
            | ub => rw [hdets, resCase_ub] at hp; exact Res.noConfusion hp
            | err e => rw [hdets, resCase_err] at hp; exact Res.noConfusion hp
            | ok dets =>
              rw [hdets, resCase_ok] at hp
              have hlen : dets.length = data.numDetections := by
                have := resMapM_ok_length _ _ _ hdets
                simpa using this
              simp only [Res.ok.injEq, Prod.mk.injEq] at hp
              refine ⟨hp.1.symm, fun l hl => ?_⟩
              rw [← hp.2] at hl
              have hld : dets = l := by
                injection hl
              intro hnil
              rw [← hld] at hnil
              rw [hnil] at hlen
              simp at hlen
              exact hn hlen.symm
          · rw [if_neg hn] at hp
            exact ok_false_none hp

/-- C10 witness: a request without an output tensor makes `Process` return
`false` with no metadata. -/
theorem C10_process_returns_false_witness :
    Process c1cfg none = Res.ok (false, none) ∧
      (false = false ∧ ∀ l, (none : Option (List Detection)) = some l → l ≠ []) :=
  ⟨by rfl, C10_process_returns_false c1cfg none false none (by rfl)⟩

/-- C5: decoding the 2-dimensional descriptor `p5` (ordinal sizes `[2, 3]`,
serialization order reversed) through the tensor-body decoder produces the
element-by-element transpose of the sequentially stored dequantized input:
output position `q * 2 + p` holds the dequantized value of serialized
position `p * 3 + q`, the destination index being
`coefficient[d] * coordinate[d]` summed over dimensions with
`coefficient[d]` the product of the sizes of the preceding ordinal
dimensions (here coefficients `(2, 1)`). -/
theorem C5_permutation (buf : Nat → Nat) (p q : Nat) (hp : p < 2) (hq : q < 3) :
    ∃ d, parseOutputTensorBody buf strideConst [p5] 64 6 = Res.ok d ∧
      d.get? (q * 2 + p) = some (getVal8 TYPE_UNSIGNED (buf (p * 3 + q)) 0 1) := by
  refine ⟨[getVal8 TYPE_UNSIGNED (buf 0) 0 1, getVal8 TYPE_UNSIGNED (buf 3) 0 1,
           getVal8 TYPE_UNSIGNED (buf 1) 0 1, getVal8 TYPE_UNSIGNED (buf 4) 0 1,
           getVal8 TYPE_UNSIGNED (buf 2) 0 1, getVal8 TYPE_UNSIGNED (buf 5) 0 1],
    ?_, ?_⟩
  · rfl
  · interval_cases p <;> interval_cases q <;> rfl

/-- C5 witness: with the identity byte buffer, output position `2*2+1 = 5`
holds the dequantized byte at serialized position `1*3+2 = 5`. -/
theorem C5_permutation_witness :
    ∃ d, parseOutputTensorBody (fun n => n) strideConst [p5] 64 6 = Res.ok d ∧
      d.get? (2 * 2 + 1) = some (getVal8 TYPE_UNSIGNED 5 0 1) :=
  C5_permutation (fun n => n) 1 2 (by decide) (by decide)

/-- In-range `get?` yields the `getD` value. -/
theorem get?_eq_some_getD {α : Type} (l : List α) (i : Nat) (d : α)
    (h : i < l.length) : l.get? i = some (l.getD i d) := by
  cases hg : l.get? i with
  | none => exact absurd (List.get?_eq_none.mp hg) (by omega)
  | some v => rw [List.getD_eq_get?, hg]; rfl

/-- In-range `vector::at` reads succeed. -/
theorem qAt_ok (l : List ℚ) (i : Nat) (h : i < l.length) :
    qAt l i = Res.ok (l.getD i 0) := by
  rw [qAt, get?_eq_some_getD l i 0 h]
  rfl

/-- A representable `(uint16_t)` conversion truncates. -/
theorem intToU16Cast_ok (z : ℤ) (h0 : 0 ≤ z) (h1 : z < 65536) :
    intToU16Cast z = Res.ok z.toNat := by
  unfold intToU16Cast
  rw [if_neg (by omega)]

/-- A representable float-to-unsigned conversion truncates toward zero. -/
theorem floatToUnsignedCast_ok (v : ℚ) (bound : Nat) (h0 : -1 < v)
    (h1 : v < (bound : ℚ)) :
    floatToUnsignedCast v bound = Res.ok (truncToNat v) := by
  unfold floatToUnsignedCast
  rw [if_neg]
  rintro (h | h) <;> linarith

/-- The `getD` through a mapped `range`. -/
theorem getD_map_range {β : Type} (f : Nat → β) (n i : Nat) (d : β)
    (h : i < n) : ((List.range n).map f).getD i d = f i := by
  rw [List.getD_eq_get?, List.get?_map, List.get?_range h]
  rfl

/-- The `resMapM` of an everywhere-successful function is the `map` of its
values. -/
theorem resMapM_ok_of_all {α β : Type} (f : α → Res β) (g : α → β) :
    ∀ xs : List α, (∀ x ∈ xs, f x = Res.ok (g x)) →
      resMapM f xs = Res.ok (xs.map g) := by
  intro xs
  induction xs with
  | nil => intro _; rfl
  | cons x xs ih =>
    intro h
    simp only [resMapM]
    rw [h x (by simp), resCase_ok,
      ih (fun y hy => h y (by simp [hy])), resCase_ok, List.map_cons]

/-- The filtering loop keeps exactly the candidates at or above the
threshold, in order, carrying their scores, converted pixel boxes and
truncated classes. -/
theorem analyseFold_eq (tensor : SsdTensor) (thr : ℚ) (w1 h1 : Nat) :
    ∀ idxs : List Nat,
      (∀ i ∈ idxs, i < tensor.scores.length ∧ i < tensor.bboxes.length ∧
        i < tensor.classes.length) →
      (∀ i ∈ idxs, ¬ tensor.scores.getD i 0 < thr → convOk tensor w1 h1 i) →
      analyseFold tensor thr w1 h1 idxs = Res.ok
        ((idxs.filter fun i => ¬ tensor.scores.getD i 0 < thr).map
            (fun i => tensor.scores.getD i 0),
         (idxs.filter fun i => ¬ tensor.scores.getD i 0 < thr).map
            (tensorPix tensor w1 h1),
         (idxs.filter fun i => ¬ tensor.scores.getD i 0 < thr).map
            (fun i => truncToNat (tensor.classes.getD i 0))) := by
  intro idxs
  induction idxs with
  | nil => intro _ _; rfl
  | cons i rest ih =>
    intro hb hc
    obtain ⟨hbs, hbb, hbc⟩ := hb i (by simp)
    have ihr := ih (fun x hx => hb x (by simp [hx]))
      (fun x hx => hc x (by simp [hx]))
    simp only [analyseFold]
    rw [qAt_ok _ _ hbs, resCase_ok]
    by_cases hlt : tensor.scores.getD i 0 < thr
    · simp only [hlt, if_true, ite_true]
      rw [ihr]
      have hf : (i :: rest).filter (fun i => ¬ tensor.scores.getD i 0 < thr) =
          rest.filter (fun i => ¬ tensor.scores.getD i 0 < thr) := by
        rw [List.filter_cons,
          if_neg (by simp only [decide_eq_true_eq]; exact fun h => h hlt)]
      rw [hf]
    · simp only [hlt, if_false, ite_false]
      obtain ⟨hcl1, hcl2, hx1, hx2, hy1, hy2, hX1, hX2, hY1, hY2⟩ :=
        hc i (by simp) hlt
      rw [get?_eq_some_getD tensor.bboxes i ⟨0, 0, 0, 0⟩ hbb]
      simp only [Option.elim_some]
      rw [intToU16Cast_ok _ hx1 hx2, resCase_ok]
      rw [intToU16Cast_ok _ hy1 hy2, resCase_ok]
      rw [intToU16Cast_ok _ hX1 hX2, resCase_ok]
      rw [intToU16Cast_ok _ hY1 hY2, resCase_ok]
      rw [qAt_ok _ _ hbc, resCase_ok]
      rw [floatToUnsignedCast_ok _ _ hcl1 hcl2, resCase_ok]
      rw [ihr, resCase_ok]
      have hf : (i :: rest).filter (fun i => ¬ tensor.scores.getD i 0 < thr) =
          i :: rest.filter (fun i => ¬ tensor.scores.getD i 0 < thr) := by
        rw [List.filter_cons, if_pos (by simp only [decide_eq_true_eq]; exact hlt)]
      rw [hf]
      simp [tensorPix]

/-- The Detection Interpreter's filter/clamp: the survivors are the first
`maxDetections` threshold-passing candidates of the first `numDetections`,
in array order. -/
theorem analyseSsd_eq (tensor : SsdTensor) (maxD : Nat) (thr : ℚ) (w h : Nat)
    (hb : ∀ i ∈ List.range tensor.numDetections,
      i < tensor.scores.length ∧ i < tensor.bboxes.length ∧
        i < tensor.classes.length)
    (hc : ∀ i ∈ List.range tensor.numDetections,
      ¬ tensor.scores.getD i 0 < thr → convOk tensor (u32pred w) (u32pred h) i) :
    analyseSsd tensor maxD thr w h = Res.ok
      { numDetections := (((List.range tensor.numDetections).filter
            (fun i => ¬ tensor.scores.getD i 0 < thr)).take maxD).length
        vBbox := (((List.range tensor.numDetections).filter
            (fun i => ¬ tensor.scores.getD i 0 < thr)).take maxD).map
              (tensorPix tensor (u32pred w) (u32pred h))
        vScores := (((List.range tensor.numDetections).filter
            (fun i => ¬ tensor.scores.getD i 0 < thr)).take maxD).map
              (fun i => tensor.scores.getD i 0)
        vClasses := (((List.range tensor.numDetections).filter
            (fun i => ¬ tensor.scores.getD i 0 < thr)).take maxD).map
              (fun i => truncToNat (tensor.classes.getD i 0)) } := by
  simp only [analyseSsd]
  rw [analyseFold_eq tensor thr (u32pred w) (u32pred h) _ hb hc, resCase_ok]
  simp only [List.length_map]
  by_cases hn : maxD < ((List.range tensor.numDetections).filter
      (fun i => ¬ tensor.scores.getD i 0 < thr)).length
  · rw [if_pos hn]
    have hlen : (((List.range tensor.numDetections).filter
        (fun i => ¬ tensor.scores.getD i 0 < thr)).take maxD).length = maxD := by
      rw [List.length_take]; omega
    rw [List.map_take, List.map_take, List.map_take, hlen]
  · rw [if_neg hn]
    have htk : ((List.range tensor.numDetections).filter
        (fun i => ¬ tensor.scores.getD i 0 < thr)).take maxD =
        (List.range tensor.numDetections).filter
          (fun i => ¬ tensor.scores.getD i 0 < thr) :=
      List.take_all_of_le (by omega)
    rw [htk]

/-- The SSD record extraction on a 61-element array with a representable
declared count: boxes at `[i], [i+10], [i+20], [i+30]`, classes at
`[40+i]`, scores at `[50+i]`, and the count at `[60]` clamped to 10. -/
theorem createSsd_eq (data : List ℚ) (h61 : data.length = 61)
    (hlo : -1 < data.getD 60 0) (hhi : data.getD 60 0 < 4294967296) :
    createSsd data 10 = Res.ok
      { numDetections := min (declaredCount data) 10
        bboxes := (List.range 10).map fun i =>
          { xMin := data.getD (i + 10) 0, yMin := data.getD i 0,
            xMax := data.getD (i + 30) 0, yMax := data.getD (i + 20) 0 }
        scores := (List.range 10).map (candScore data)
        classes := (List.range 10).map (candClass data) } := by
  unfold createSsd
  rw [if_neg (by norm_num [PplDnnOutputTensorSize])]
  rw [resMapM_ok_of_all _
    (fun i => ({ xMin := data.getD (i + 10) 0, yMin := data.getD i 0,
                 xMax := data.getD (i + 30) 0, yMax := data.getD (i + 20) 0 } : Bbox))
    (List.range 10) ?hbb, resCase_ok]
  case hbb =>
    intro i hi
    have hi10 : i < 10 := by simpa using hi
    rw [qAt_ok data i (by omega), resCase_ok,
      qAt_ok data (i + 10) (by omega), resCase_ok,
      qAt_ok data (i + 2 * 10) (by omega), resCase_ok,
      qAt_ok data (i + 3 * 10) (by omega), resCase_ok]
  rw [resMapM_ok_of_all _ (candClass data) (List.range 10) ?hcl, resCase_ok]
  case hcl =>
    intro i hi
    have hi10 : i < 10 := by simpa using hi
    rw [if_neg (by norm_num [PplDnnOutputTensorSize]; omega),
      qAt_ok data (4 * 10 + i) (by omega)]
    norm_num [candClass]
  rw [resMapM_ok_of_all _ (candScore data) (List.range 10) ?hsc, resCase_ok]
  case hsc =>
    intro i hi
    have hi10 : i < 10 := by simpa using hi
    rw [if_neg (by norm_num [PplDnnOutputTensorSize]; omega),
      qAt_ok data (5 * 10 + i) (by omega)]
    norm_num [candScore]
  rw [if_neg (by norm_num [PplDnnOutputTensorSize])]
  rw [qAt_ok data (6 * 10) (by omega), resCase_ok]
  rw [floatToUnsignedCast_ok _ 4294967296 (by simpa using hlo)
    (by push_cast; simpa using hhi), resCase_ok]
  have hmin : ∀ n : Nat, (if 10 < n then 10 else n) = min n 10 := by
    intro n; split <;> omega
  norm_num [hmin, declaredCount]

/-- C9 (amended): for every 61-element decoded array whose declared count
(element 60) truncates to a representable `unsigned int`, and whose
threshold-passing candidates all have representable class and box
conversions, the surviving detections are exactly the first `maxDetections`
entries, in array order, of those among the first
`min(numDetections, 10)` candidates whose score is at least the threshold
(the declared count being clamped to 10 without failing when it exceeds 10);
truncation keeps the first entries in array order, never the
highest-scoring ones. -/
theorem C9_survivors (data : List ℚ) (maxD : Nat) (thr : ℚ) (w h : Nat)
    (h61 : data.length = 61)
    (hlo : -1 < data.getD 60 0) (hhi : data.getD 60 0 < 4294967296)
    (hconv : ∀ i ∈ keptIdx data thr (min (declaredCount data) 10),
      dataConvOk data (u32pred w) (u32pred h) i) :
    ssdChain data maxD thr w h = Res.ok
      { numDetections :=
          ((keptIdx data thr (min (declaredCount data) 10)).take maxD).length
        vBbox := ((keptIdx data thr (min (declaredCount data) 10)).take maxD).map
          (candBboxPix data (u32pred w) (u32pred h))
        vScores := ((keptIdx data thr (min (declaredCount data) 10)).take maxD).map
          (candScore data)
        vClasses := ((keptIdx data thr (min (declaredCount data) 10)).take maxD).map
          (fun i => truncToNat (candClass data i)) } := by
  have hcr := createSsd_eq data h61 hlo hhi
  set T : SsdTensor :=
    { numDetections := min (declaredCount data) 10
      bboxes := (List.range 10).map fun i =>
        { xMin := data.getD (i + 10) 0, yMin := data.getD i 0,
          xMax := data.getD (i + 30) 0, yMax := data.getD (i + 20) 0 }
      scores := (List.range 10).map (candScore data)
      classes := (List.range 10).map (candClass data) } with hT
  have hN10 : T.numDetections ≤ 10 := by simp only [hT]; omega
  have hsc : ∀ i, i < 10 → T.scores.getD i 0 = candScore data i := by
    intro i hi
    simp only [hT]
    exact getD_map_range _ 10 i 0 hi
  have hcl : ∀ i, i < 10 → T.classes.getD i 0 = candClass data i := by
    intro i hi
    simp only [hT]
    exact getD_map_range _ 10 i 0 hi
  have hbx : ∀ i, i < 10 → T.bboxes.getD i ⟨0, 0, 0, 0⟩ =
      ({ xMin := data.getD (i + 10) 0, yMin := data.getD i 0,
         xMax := data.getD (i + 30) 0, yMax := data.getD (i + 20) 0 } : Bbox) := by
    intro i hi
    simp only [hT]
    exact getD_map_range _ 10 i _ hi
  have hfil : (List.range T.numDetections).filter
      (fun i => ¬ T.scores.getD i 0 < thr) =
      keptIdx data thr (min (declaredCount data) 10) := by
    unfold keptIdx
    have hTN : T.numDetections = min (declaredCount data) 10 := by simp only [hT]
    rw [hTN]
    refine List.filter_congr fun i hi => ?_
    have hi10 : i < 10 := by
      have := List.mem_range.mp hi
      omega
    rw [hsc i hi10]
    rfl
  have hb : ∀ i ∈ List.range T.numDetections,
      i < T.scores.length ∧ i < T.bboxes.length ∧ i < T.classes.length := by
    intro i hi
    have hiN := List.mem_range.mp hi
    simp only [hT, List.length_map, List.length_range]
    omega
  have hc : ∀ i ∈ List.range T.numDetections,
      ¬ T.scores.getD i 0 < thr → convOk T (u32pred w) (u32pred h) i := by
    intro i hi hk
    have hiN := List.mem_range.mp hi
    have hi10 : i < 10 := by omega
    have hmem : i ∈ keptIdx data thr (min (declaredCount data) 10) := by
      rw [← hfil]
      refine List.mem_filter.mpr ⟨hi, ?_⟩
      simpa using hk
    have hd := hconv i hmem
    unfold convOk
    rw [hcl i hi10, hbx i hi10]
    exact hd
  have han := analyseSsd_eq T maxD thr w h hb hc
  simp only [ssdChain, PplTotalDetections]
  rw [hcr, resCase_ok, han, hfil]
  refine congrArg Res.ok ?_
  have hsub : ∀ i ∈ (keptIdx data thr (min (declaredCount data) 10)).take maxD,
      i < 10 := by
    intro i hi
    have hmem := List.take_subset maxD _ hi
    have := List.mem_range.mp (List.mem_filter.mp hmem).1
    omega
  congr 1
  · refine List.map_congr_left fun i hi => ?_
    unfold tensorPix candBboxPix
    rw [hbx i (hsub i hi)]
  · refine List.map_congr_left fun i hi => hsc i (hsub i hi)
  · refine List.map_congr_left fun i hi => by rw [hcl i (hsub i hi)]

/-- C9 counterexample: a 61-element array whose element 60 declares
`2^32` detections - which exceeds 10, so the claim requires a clamp to 10
without failing - instead drives the float-to-`unsigned int` conversion in
`createObjectDetectionSsdData` into undefined behaviour: no defined list of
surviving detections exists for this input. -/
theorem C9_counterexample :
    d9.length = 61 ∧ d9.get? 60 = some 4294967296 ∧
      ssdChain d9 10 0 100 100 = Res.ub :=
  ⟨by decide, by decide, by decide⟩

/-- C9 witness: on the all-zero array with threshold 1, no candidate
passes, and the survivor lists are empty. -/
theorem C9_survivors_witness :
    (d9w.length = 61 ∧ -1 < d9w.getD 60 0 ∧ d9w.getD 60 0 < 4294967296) ∧
      ssdChain d9w 10 1 100 100 = Res.ok ⟨0, [], [], []⟩ := by
  have h61 : d9w.length = 61 := by simp [d9w]
  have hz : ∀ k : Nat, d9w.getD k 0 = 0 := by
    intro k
    simp only [d9w, List.getD_eq_get?, List.get?_eq_getElem?,
      List.getElem?_replicate]
    split <;> rfl
  have hlo : -1 < d9w.getD 60 0 := by rw [hz]; norm_num
  have hhi : d9w.getD 60 0 < 4294967296 := by rw [hz]; norm_num
  have hconv : ∀ i ∈ keptIdx d9w 1 (min (declaredCount d9w) 10),
      dataConvOk d9w (u32pred 100) (u32pred 100) i := by
    intro i _
    unfold dataConvOk candClass
    simp only [hz]
    norm_num [roundC]
  refine ⟨⟨h61, hlo, hhi⟩, ?_⟩
  have happ := C9_survivors d9w 10 1 100 100 h61 hlo hhi hconv
  rw [happ]
  have hkept : keptIdx d9w 1 (min (declaredCount d9w) 10) = [] := by
    unfold keptIdx
    refine List.eq_nil_iff_forall_not_mem.mpr fun i hmem => ?_
    have hsc := (List.mem_filter.mp hmem).2
    simp only [hz] at hsc
    norm_num at hsc
  rw [hkept]
  rfl

end Imx500
